import Mathlib

/-!
Shallow embedding of `src/dashboard.py` (the Inventory-History dashboard).

Dataframes become lists of records; pandas boolean-mask filtering becomes
`List.filter`; `groupby(col)['Quantity'].sum()` becomes `groupSum` (distinct
keys in first-occurrence order, null keys dropped, as pandas drops NaT group
keys); `sort_values(col, ascending=False)` becomes a comparison sort with a
descending comparator; dates are modelled as `Int` (pandas timestamps are
totally ordered and the script only compares them); the streamlit page is
modelled as a `View` value describing exactly what the script renders.
-/

namespace InventoryHistory

/-- One row of the inventory table (`master_inventory_data.parquet`):
columns `asin`, `sku`, `product-name`, `Date`, `Region`,
`Fulfillable Quantity`, `Reserved`, `Inbound`. -/
structure InvRow where
  asin : String
  sku : String
  product_name : String
  date : Int
  region : String
  fulfillable_quantity : Int
  reserved : Int
  inbound : Int
deriving DecidableEq

/-- One row of the orders table (`master_order_data.parquet`): columns
`asin`, `sku`, `Order ID`, `Order Date`, `Dispatch Date` (nullable),
`Quantity`, `Target_Region`, `Warehouse`, `Channel Name`. -/
structure OrdRow where
  asin : String
  sku : String
  order_id : String
  order_date : Int
  dispatch_date : Option Int
  quantity : Int
  target_region : String
  warehouse : String
  channel_name : String
deriving DecidableEq

/-- Python `str.strip()` whitespace predicate: the characters CPython's
`str.isspace` accepts and `str.strip()` removes — ASCII whitespace, the C1
separators, NEL, NBSP, and the Unicode space, line and paragraph
separators (categories Zs, Zl, Zp). -/
def pyIsSpace (c : Char) : Bool :=
  c == ' ' || c == '\t' || c == '\n' || c == '\x0b' || c == '\x0c' ||
  c == '\r' || c == '\x1c' || c == '\x1d' || c == '\x1e' || c == '\x1f' ||
  c == '\x85' || c == '\u00a0' || c == '\u1680' ||
  c == '\u2000' || c == '\u2001' || c == '\u2002' || c == '\u2003' ||
  c == '\u2004' || c == '\u2005' || c == '\u2006' || c == '\u2007' ||
  c == '\u2008' || c == '\u2009' || c == '\u200a' || c == '\u2028' ||
  c == '\u2029' || c == '\u202f' || c == '\u205f' || c == '\u3000'

/-- Drop the trailing run of characters satisfying `p`. -/
def dropWhileRight (p : Char → Bool) (l : List Char) : List Char :=
  (l.reverse.dropWhile p).reverse

/-- Python `s.strip()`: remove leading and trailing whitespace. -/
def pyStrip (s : String) : String :=
  ⟨dropWhileRight pyIsSpace (s.data.dropWhile pyIsSpace)⟩

/-- Sum of the `Quantity` column over a list of order rows. -/
def qsum (rows : List OrdRow) : Int :=
  (rows.map OrdRow.quantity).sum

/-- Pandas `rows.groupby(key)['Quantity'].sum()`: one `(key, sum)` entry per
distinct non-null key value.  Rows whose key is `none` (NaT) are dropped from
the grouping, as pandas drops null group keys.  Pandas emits groups in sorted
key order; no property below depends on the order of the entries, so the
distinct keys are kept in first-occurrence order. -/
def groupSum (rows : List OrdRow) (key : OrdRow → Option Int) : List (Int × Int) :=
  ((rows.filterMap key).dedup).map
    (fun k => (k, qsum (rows.filter (fun r => key r == some k))))

/-- A plotly trace: its legend name and its `(x, y)` points. -/
structure Trace where
  name : String
  points : List (Int × Int)
deriving DecidableEq

/-- The parts of the plotly figure built by `create_combo_chart` that carry
data: the title, the three inventory line traces, the order bar traces, and
the forced x-axis range from `update_layout`. -/
structure Figure where
  title : String
  lines : List Trace
  bars : List Trace
  xaxis_range : Int × Int
deriving DecidableEq

/-- `create_combo_chart(inv_data, ord_data, title, is_eu)` from
`src/dashboard.py` lines 99-139.  `start_date` and `end_date` are free
variables of the Python closure, passed here explicitly. -/
def create_combo_chart (inv_data : List InvRow) (ord_data : List OrdRow)
    (title : String) (start_date end_date : Int) (is_eu : Bool) : Figure :=
  { title := title
    lines :=
      [⟨"Available", inv_data.map (fun r => (r.date, r.fulfillable_quantity))⟩,
       ⟨"Reserved", inv_data.map (fun r => (r.date, r.reserved))⟩,
       ⟨"Inbound", inv_data.map (fun r => (r.date, r.inbound))⟩]
    bars :=
      if ord_data.isEmpty then []
      else
        (let dawson := ord_data.filter (fun r => r.warehouse == "Dawson")
         if dawson.isEmpty then []
         else
           [⟨"Order Placed (Dawson)", groupSum dawson (fun r => some r.order_date)⟩,
            ⟨"Dispatched (Dawson)", groupSum dawson (fun r => r.dispatch_date)⟩]) ++
        (if is_eu then
           let romania := ord_data.filter (fun r => r.warehouse == "Romania")
           if romania.isEmpty then []
           else
             [⟨"Order Placed (RO)", groupSum romania (fun r => some r.order_date)⟩,
              ⟨"Dispatched (RO)", groupSum romania (fun r => r.dispatch_date)⟩]
         else [])
    xaxis_range := (start_date, end_date) }

/-- The columns selected for the order tables (`display_cols`, line 163). -/
def display_cols : List String :=
  ["Order ID", "sku", "Order Date", "Quantity", "Channel Name", "Dispatch Date"]

/-- A rendered `st.dataframe` order table: the selected columns and the
rows in display order. -/
structure OrderTable where
  cols : List String
  rows : List OrdRow
deriving DecidableEq

/-- The descending `Order Date` comparison used to sort the order tables. -/
def dateDesc (a b : OrdRow) : Prop :=
  b.order_date ≤ a.order_date

instance : DecidableRel dateDesc :=
  fun a b => Int.decLe b.order_date a.order_date

instance : IsTotal OrdRow dateDesc :=
  ⟨fun a b => Int.le_total b.order_date a.order_date⟩

instance : IsTrans OrdRow dateDesc :=
  ⟨fun _ _ _ h1 h2 => le_trans h2 h1⟩

/-- `sort_values('Order Date', ascending=False)`: sort rows by `Order Date`
descending (pandas' default sort is unstable, so only the ordering by key is
specified; any comparison sort models it). -/
def sortByOrderDateDesc (rows : List OrdRow) : List OrdRow :=
  List.insertionSort dateDesc rows

/-- Everything the script renders below the region split when inventory data
is present: the product header, the two figures, and the two order tables
(`none` models the "No UK/EU Orders found." info box). -/
structure Dashboard where
  header : Option (String × String)
  figUK : Figure
  figEU : Figure
  tableUK : Option OrderTable
  tableEU : Option OrderTable
deriving DecidableEq

/-- What the main block renders: the prompt when no ASIN is entered, the
"No Inventory data found" warning, or the full dashboard. -/
inductive View where
  | promptAsin : View
  | noInventory (msg : String) : View
  | dashboard (d : Dashboard) : View
deriving DecidableEq

/-- `asin_inv` (line 65): inventory rows whose `asin` equals the target. -/
def asin_inv (df_inv : List InvRow) (target_asin : String) : List InvRow :=
  df_inv.filter (fun r => r.asin == target_asin)

/-- `asin_inv_filtered` (line 66): restrict `asin_inv` to the date window,
both bounds inclusive. -/
def asin_inv_filtered (df_inv : List InvRow) (target_asin : String)
    (start_date end_date : Int) : List InvRow :=
  (asin_inv df_inv target_asin).filter
    (fun r => decide (start_date ≤ r.date) && decide (r.date ≤ end_date))

/-- `asin_orders` (lines 69-72): empty when the orders file is missing,
otherwise the order rows whose `asin` equals the target. -/
def asin_orders (df_ord : Option (List OrdRow)) (target_asin : String) : List OrdRow :=
  match df_ord with
  | none => []
  | some df => df.filter (fun r => r.asin == target_asin)

/-- `inv_uk` (line 86). -/
def inv_uk (filtered : List InvRow) : List InvRow :=
  filtered.filter (fun r => r.region == "UK")

/-- `inv_eu` (line 87). -/
def inv_eu (filtered : List InvRow) : List InvRow :=
  filtered.filter (fun r => r.region == "EU")

/-- `ord_uk` (line 91), including the `if not asin_orders.empty` guard. -/
def ord_uk (orders : List OrdRow) : List OrdRow :=
  if orders.isEmpty then [] else orders.filter (fun r => r.target_region == "UK")

/-- `ord_eu` (line 94). -/
def ord_eu (orders : List OrdRow) : List OrdRow :=
  if orders.isEmpty then [] else orders.filter (fun r => r.target_region == "EU")

/-- One order table column (lines 167-178): shown only when the regional
subset is non-empty; its rows are the subset restricted to the selected date
window, sorted by `Order Date` descending, projected to `display_cols`. -/
def renderTable (regional : List OrdRow) (start_date end_date : Int) :
    Option OrderTable :=
  if regional.isEmpty then none
  else
    some
      { cols := display_cols
        rows := sortByOrderDateDesc (regional.filter
            (fun r => decide (start_date ≤ r.order_date) &&
                      decide (r.order_date ≤ end_date))) }

/-- The main block of `src/dashboard.py` (lines 54-183): strip the entered
ASIN, prompt when it is empty, filter inventory and orders, and either warn
that no inventory was found or render the two charts and two tables. -/
def renderMain (df_inv : List InvRow) (df_ord : Option (List OrdRow))
    (start_date end_date : Int) (rawAsin : String) : View :=
  let target_asin := pyStrip rawAsin
  if target_asin = "" then .promptAsin
  else
    let filtered := asin_inv_filtered df_inv target_asin start_date end_date
    let orders := asin_orders df_ord target_asin
    if filtered.isEmpty then
      .noInventory ("No Inventory data found for " ++ target_asin ++ " in this period.")
    else
      let uk := ord_uk orders
      let eu := ord_eu orders
      .dashboard
        { header := filtered.getLast?.map (fun r => (r.product_name, r.sku))
          figUK := create_combo_chart (inv_uk filtered) uk
            "UK Inventory & Orders" start_date end_date false
          figEU := create_combo_chart (inv_eu filtered) eu
            "EU Inventory & Orders (Dawson + Romania)" start_date end_date true
          tableUK := renderTable uk start_date end_date
          tableEU := renderTable eu start_date end_date }

/-- The diagnostic shown when the inventory file is missing (line 37). -/
def missingInventoryMsg : String :=
  "Missing master_inventory_data.parquet. Please run process_data.py first."

/-- Outcome of one run of the script: `st.error` + `st.stop`, or a page. -/
inductive AppResult where
  | fatal (msg : String) : AppResult
  | page (v : View) : AppResult
deriving DecidableEq

/-- Top level of the script (lines 17-38 plus the main block): `load_data`
yields `none` for each missing file; a missing inventory table halts with a
diagnostic, otherwise the main block runs. -/
def runApp (df_inv : Option (List InvRow)) (df_ord : Option (List OrdRow))
    (start_date end_date : Int) (rawAsin : String) : AppResult :=
  match df_inv with
  | none => .fatal missingInventoryMsg
  | some inv => .page (renderMain inv df_ord start_date end_date rawAsin)

/-- The bar traces of the UK chart of a view (empty when no chart renders). -/
def ukBarsOf : View → List Trace
  | .dashboard d => d.figUK.bars
  | _ => []

/-- The bar traces of the EU chart of a view (empty when no chart renders). -/
def euBarsOf : View → List Trace
  | .dashboard d => d.figEU.bars
  | _ => []

/-- The product-name/sku header of a view, when one renders. -/
def headerOf : View → Option (String × String)
  | .dashboard d => d.header
  | _ => none

/-- The forced x-axis range of the UK chart of a view, when one renders. -/
def xRangeUKOf : View → Option (Int × Int)
  | .dashboard d => some d.figUK.xaxis_range
  | _ => none

/-- The UK order table of a view, when one renders. -/
def tableUKOf : View → Option OrderTable
  | .dashboard d => d.tableUK
  | _ => none

/-- The EU order table of a view, when one renders. -/
def tableEUOf : View → Option OrderTable
  | .dashboard d => d.tableEU
  | _ => none

/-- The column set the specification claims for the order tables.  Modelled
from the spec, for comparison against `display_cols` in the code. -/
def claimedDisplayCols : List String :=
  ["Order Date", "Dispatch Date", "Quantity", "Order ID", "Warehouse",
   "Channel Name", "sku"]

/-- Sample inventory row used by concrete witnesses. -/
def sInv1 : InvRow := ⟨"A", "s1", "NameEarly", 3, "UK", 10, 1, 2⟩

/-- Second sample inventory row (later date, EU region). -/
def sInv2 : InvRow := ⟨"A", "s2", "NameLate", 5, "EU", 8, 0, 1⟩

/-- Sample order row (Dawson, UK, dispatched). -/
def sOrd1 : OrdRow := ⟨"A", "s1", "ord1", 2, some 3, 5, "UK", "Dawson", "amz"⟩

/-- Sample order row (Romania, EU, null dispatch date). -/
def sOrd2 : OrdRow := ⟨"A", "s1", "ord2", 2, none, 7, "EU", "Romania", "amz"⟩

/-- Sample order row (Dawson, UK, later order date). -/
def sOrd3 : OrdRow := ⟨"A", "s1", "ord3", 4, some 6, 2, "UK", "Dawson", "amz"⟩

/-- C2: the filtered inventory set is exactly the rows whose `asin` equals
the target by case-sensitive exact string equality and whose date lies in
the inclusive window; when that set is empty the main block renders the
non-fatal "no inventory data" notice instead of charts or tables. -/
theorem c2_inventory_filter (df_inv : List InvRow) (df_ord : Option (List OrdRow))
    (start_date end_date : Int) (t : String) (ht : pyStrip t = t) (hne : t ≠ "") :
    (∀ r : InvRow, r ∈ asin_inv_filtered df_inv t start_date end_date ↔
        r ∈ df_inv ∧ r.asin = t ∧ start_date ≤ r.date ∧ r.date ≤ end_date)
    ∧ (asin_inv_filtered df_inv t start_date end_date = [] →
        renderMain df_inv df_ord start_date end_date t =
          .noInventory ("No Inventory data found for " ++ t ++ " in this period.")) := by
  constructor
  · intro r
    simp only [asin_inv_filtered, asin_inv, List.mem_filter, Bool.and_eq_true,
      decide_eq_true_eq, beq_iff_eq]
    tauto
  · intro hemp
    simp only [renderMain]
    rw [ht, if_neg hne, hemp]
    simp

/-- Witness for C2 at a concrete table, target and window. -/
theorem c2_witness : sInv1 ∈ asin_inv_filtered [sInv1] "A" 0 10 :=
  ((c2_inventory_filter [sInv1] none 0 10 "A" (by decide) (by decide)).1 sInv1).mpr
    (by refine ⟨by decide, by decide, by decide, by decide⟩)

/-- C8: when every filtered inventory row carries region UK or EU, the UK
and EU subsets partition the filtered rows: appending them is a permutation
of the filtered list, and no row lies in both subsets. -/
theorem c8_region_partition (df_inv : List InvRow) (t : String) (s e : Int)
    (h : ∀ r ∈ asin_inv_filtered df_inv t s e, r.region = "UK" ∨ r.region = "EU") :
    (inv_uk (asin_inv_filtered df_inv t s e) ++ inv_eu (asin_inv_filtered df_inv t s e)).Perm
        (asin_inv_filtered df_inv t s e)
    ∧ ∀ r, r ∈ inv_uk (asin_inv_filtered df_inv t s e) →
        r ∉ inv_eu (asin_inv_filtered df_inv t s e) := by
  constructor
  · have hcongr : (asin_inv_filtered df_inv t s e).filter (fun r => r.region == "EU")
        = (asin_inv_filtered df_inv t s e).filter (fun r => !(r.region == "UK")) := by
      apply List.filter_congr
      intro r hr
      rcases h r hr with h1 | h1 <;> rw [h1] <;> decide
    unfold inv_uk inv_eu
    rw [hcongr]
    exact List.filter_append_perm _ _
  · intro r huk heu
    have h1 : r.region = "UK" := by
      have h2 := (List.mem_filter.mp huk).2
      simpa using h2
    have h2 : r.region = "EU" := by
      have h3 := (List.mem_filter.mp heu).2
      simpa using h3
    rw [h1] at h2
    exact absurd h2 (by decide)

/-- Witness for C8 at a concrete filtered inventory with one row per region. -/
theorem c8_witness :
    (inv_uk (asin_inv_filtered [sInv1, sInv2] "A" 0 10) ++
        inv_eu (asin_inv_filtered [sInv1, sInv2] "A" 0 10)).Perm
      (asin_inv_filtered [sInv1, sInv2] "A" 0 10) :=
  (c8_region_partition [sInv1, sInv2] "A" 0 10 (by decide)).1

/-- Summing the zero function over a key list gives zero. -/
theorem sum_map_zero (ks : List Int) : (ks.map (fun _ => (0 : Int))).sum = 0 := by
  induction ks with
  | nil => rfl
  | cons a t ih => simp [ih]

/-- Pointwise addition distributes over a mapped sum. -/
theorem sum_map_add_distrib (ks : List Int) (f g : Int → Int) :
    (ks.map (fun k => f k + g k)).sum = (ks.map f).sum + (ks.map g).sum := by
  induction ks with
  | nil => rfl
  | cons a t ih =>
    simp only [List.map_cons, List.sum_cons, ih]
    ring

/-- An indicator sum over a list not containing the key is zero. -/
theorem sum_map_ite_of_not_mem (ks : List Int) (k0 c : Int) (h : k0 ∉ ks) :
    (ks.map (fun k => if k0 = k then c else 0)).sum = 0 := by
  induction ks with
  | nil => rfl
  | cons a t ih =>
    simp only [List.map_cons, List.sum_cons]
    have hne : k0 ≠ a := by
      rintro rfl
      exact h (List.mem_cons_self k0 t)
    rw [if_neg hne, ih (fun hm => h (List.mem_cons_of_mem a hm))]
    ring

/-- An indicator sum over a duplicate-free list containing the key picks the
key's value exactly once. -/
theorem sum_map_ite_eq (ks : List Int) (k0 c : Int) (hnd : ks.Nodup) (hmem : k0 ∈ ks) :
    (ks.map (fun k => if k0 = k then c else 0)).sum = c := by
  induction ks with
  | nil => cases hmem
  | cons a t ih =>
    simp only [List.map_cons, List.sum_cons]
    rcases List.mem_cons.mp hmem with h | h
    · rw [if_pos h, sum_map_ite_of_not_mem t k0 c (h ▸ (List.nodup_cons.mp hnd).1)]
      ring
    · have hne : k0 ≠ a := by
        rintro rfl
        exact (List.nodup_cons.mp hnd).1 h
      rw [if_neg hne, ih (List.nodup_cons.mp hnd).2 h]
      ring

/-- `qsum` over a filtered cons splits off the head's contribution. -/
theorem qsum_filter_cons (p : OrdRow → Bool) (r : OrdRow) (rows : List OrdRow) :
    qsum ((r :: rows).filter p)
      = (if p r then r.quantity else 0) + qsum (rows.filter p) := by
  rw [List.filter_cons]
  by_cases h : p r
  · simp [h, qsum]
  · simp [h]

/-- The head row's indicator sum over a covering duplicate-free key list is
its quantity when its key is non-null, and zero otherwise. -/
theorem sum_map_key_ind (ks : List Int) (key : OrdRow → Option Int) (r : OrdRow)
    (hnd : ks.Nodup) (hcov : ∀ k0, key r = some k0 → k0 ∈ ks) :
    (ks.map (fun k => if key r == some k then r.quantity else 0)).sum
      = if (key r).isSome then r.quantity else 0 := by
  cases hk : key r with
  | none =>
    simp only [hk, Option.isSome_none, Bool.false_eq_true, if_false]
    have hfun : ∀ k ∈ ks, (if (none : Option Int) == some k then r.quantity else 0)
        = (0 : Int) := by
      intro k _
      rfl
    rw [List.map_congr_left hfun]
    exact sum_map_zero ks
  | some k0 =>
    simp only [hk, Option.isSome_some, if_true]
    have hfun : ∀ k ∈ ks, (if (some k0 : Option Int) == some k then r.quantity else 0)
        = (if k0 = k then r.quantity else 0) := by
      intro k _
      by_cases h : k0 = k
      · rw [if_pos h, if_pos]
        rw [h]
        exact beq_self_eq_true (some k)
      · rw [if_neg h, if_neg]
        simp only [beq_iff_eq, Option.some.injEq]
        exact h
    rw [List.map_congr_left hfun]
    exact sum_map_ite_eq ks k0 r.quantity hnd (hcov k0 hk)

/-- Summing group sums over any duplicate-free key list covering every key
of the rows recovers the quantity total of the rows with a non-null key. -/
theorem groupTotal_eq_qsum_filter (key : OrdRow → Option Int) (rows : List OrdRow)
    (ks : List Int) (hnd : ks.Nodup)
    (hcov : ∀ r ∈ rows, ∀ k0, key r = some k0 → k0 ∈ ks) :
    (ks.map (fun k => qsum (rows.filter (fun x => key x == some k)))).sum
      = qsum (rows.filter (fun r => (key r).isSome)) := by
  induction rows with
  | nil =>
    simp only [List.filter_nil]
    have hfun : ∀ k ∈ ks, qsum ([] : List OrdRow) = (0 : Int) := by
      intro k _
      rfl
    rw [List.map_congr_left hfun, sum_map_zero]
    rfl
  | cons r rest ih =>
    have hfun : ∀ k ∈ ks, qsum ((r :: rest).filter (fun x => key x == some k))
        = (if key r == some k then r.quantity else 0)
          + qsum (rest.filter (fun x => key x == some k)) := by
      intro k _
      exact qsum_filter_cons _ r rest
    rw [List.map_congr_left hfun, sum_map_add_distrib,
      sum_map_key_ind ks key r hnd (hcov r (List.mem_cons_self r rest)),
      ih (fun x hx => hcov x (List.mem_cons_of_mem r hx)),
      qsum_filter_cons]

/-- C9: for every warehouse order subset, summing the per-date sums of its
Placed series (group by `Order Date`, sum `Quantity`) recovers the total
quantity of the whole subset: the aggregation loses no quantity. -/
theorem c9_placed_total (ord_data : List OrdRow) (w : String) :
    ((groupSum (ord_data.filter (fun r => r.warehouse == w))
        (fun r => some r.order_date)).map Prod.snd).sum
      = qsum (ord_data.filter (fun r => r.warehouse == w)) := by
  unfold groupSum
  rw [List.map_map]
  have hmapped : ∀ rows : List OrdRow,
      ((rows.filterMap (fun r => some r.order_date)).dedup.map
        (Prod.snd ∘ fun k =>
          (k, qsum (rows.filter (fun x => some x.order_date == some k))))).sum
      = qsum rows := by
    intro rows
    have h2 := groupTotal_eq_qsum_filter (fun r => some r.order_date) rows
      ((rows.filterMap (fun r => some r.order_date)).dedup)
      (List.nodup_dedup _)
      (fun x hx k0 hk => List.mem_dedup.mpr (List.mem_filterMap.mpr ⟨x, hx, hk⟩))
    have h3 : rows.filter (fun r => (some r.order_date).isSome) = rows := by
      apply List.filter_eq_self.mpr
      intro a _
      rfl
    rw [h3] at h2
    exact h2
  exact hmapped _

/-- Filtering to non-null keys does not change the key values collected by
`filterMap`. -/
theorem filterMap_filter_isSome (key : OrdRow → Option Int) (rows : List OrdRow) :
    (rows.filter (fun r => (key r).isSome)).filterMap key = rows.filterMap key := by
  induction rows with
  | nil => rfl
  | cons r rest ih =>
    cases hk : key r with
    | none => simp [List.filter_cons, List.filterMap_cons, hk, ih]
    | some v => simp [List.filter_cons, List.filterMap_cons, hk, ih]

/-- The rows grouped under a concrete key are unchanged by first discarding
the null-key rows. -/
theorem filter_key_eq_filter_isSome (key : OrdRow → Option Int) (rows : List OrdRow)
    (k : Int) :
    (rows.filter (fun r => (key r).isSome)).filter (fun x => key x == some k)
      = rows.filter (fun x => key x == some k) := by
  rw [List.filter_filter]
  apply List.filter_congr
  intro r _
  cases hk : key r with
  | none => rfl
  | some v => simp

/-- C6: rows with a null `Dispatch Date` are excluded from the Dispatched
group-by-sum aggregate — computing it after discarding them changes nothing,
so they appear in no group — while the Placed aggregate of the same subset
still has a group for every row's `Order Date`, null dispatch included. -/
theorem c6_null_dispatch (rows : List OrdRow) :
    (groupSum (rows.filter (fun r => r.dispatch_date.isSome))
        (fun r => r.dispatch_date)
      = groupSum rows (fun r => r.dispatch_date))
    ∧ (∀ r ∈ rows, r.order_date ∈
        (groupSum rows (fun r => some r.order_date)).map Prod.fst) := by
  constructor
  · simp only [groupSum]
    rw [filterMap_filter_isSome (fun r => r.dispatch_date)]
    apply List.map_congr_left
    intro k _
    rw [filter_key_eq_filter_isSome (fun r => r.dispatch_date)]
  · intro r hr
    have h1 : (groupSum rows (fun x => some x.order_date)).map Prod.fst
        = (rows.filterMap (fun x => some x.order_date)).dedup := by
      simp only [groupSum]
      rw [List.map_map]
      have h2 : (Prod.fst ∘ fun k =>
          (k, qsum (rows.filter (fun x => some x.order_date == some k)))) = id := by
        funext k
        rfl
      rw [h2, List.map_id]
    rw [h1]
    exact List.mem_dedup.mpr (List.mem_filterMap.mpr ⟨r, hr, rfl⟩)

/-- Witness for C6 at a concrete subset containing a null-dispatch row. -/
theorem c6_witness :
    groupSum ([sOrd1, sOrd2].filter (fun r => r.dispatch_date.isSome))
        (fun r => r.dispatch_date)
      = groupSum [sOrd1, sOrd2] (fun r => r.dispatch_date) :=
  (c6_null_dispatch [sOrd1, sOrd2]).1

/-- The `if not asin_orders.empty` guard in `ord_uk` is redundant: the result
always equals the plain `Target_Region` filter. -/
theorem ord_uk_eq_filter (orders : List OrdRow) :
    ord_uk orders = orders.filter (fun r => r.target_region == "UK") := by
  cases orders with
  | nil => rfl
  | cons a l => rfl

/-- Same for `ord_eu`. -/
theorem ord_eu_eq_filter (orders : List OrdRow) :
    ord_eu orders = orders.filter (fun r => r.target_region == "EU") := by
  cases orders with
  | nil => rfl
  | cons a l => rfl

/-- With `is_eu = false` the chart's bar traces are determined by the Dawson
warehouse subset alone. -/
theorem bars_not_eu (inv_data : List InvRow) (ord_data : List OrdRow)
    (title : String) (s e : Int) :
    (create_combo_chart inv_data ord_data title s e false).bars
      = (if (ord_data.filter (fun r => r.warehouse == "Dawson")).isEmpty then []
         else
           [⟨"Order Placed (Dawson)",
              groupSum (ord_data.filter (fun r => r.warehouse == "Dawson"))
                (fun r => some r.order_date)⟩,
            ⟨"Dispatched (Dawson)",
              groupSum (ord_data.filter (fun r => r.warehouse == "Dawson"))
                (fun r => r.dispatch_date)⟩]) := by
  cases ord_data with
  | nil => rfl
  | cons a l => simp [create_combo_chart]

/-- C1: for every inventory table, orders table, window and entered
identifier, the UK chart's bar traces are unchanged when every
Romania-warehouse order row is deleted from the orders table: no Romania
row ever contributes to the UK view, which is built with `is_eu = false`
and so aggregates only the Dawson subset. -/
theorem c1_romania_never_in_uk (df_inv : List InvRow) (ords : List OrdRow)
    (s e : Int) (raw : String) :
    ukBarsOf (renderMain df_inv
        (some (ords.filter (fun r => !(r.warehouse == "Romania")))) s e raw)
      = ukBarsOf (renderMain df_inv (some ords) s e raw) := by
  simp only [renderMain]
  by_cases h1 : pyStrip raw = ""
  · rw [if_pos h1, if_pos h1]
  · rw [if_neg h1, if_neg h1]
    by_cases h2 : (asin_inv_filtered df_inv (pyStrip raw) s e).isEmpty
    · rw [if_pos h2, if_pos h2]
    · rw [if_neg h2, if_neg h2]
      simp only [ukBarsOf]
      rw [bars_not_eu, bars_not_eu]
      have hd : (ord_uk (asin_orders
            (some (ords.filter (fun r => !(r.warehouse == "Romania"))))
            (pyStrip raw))).filter (fun r => r.warehouse == "Dawson")
          = (ord_uk (asin_orders (some ords) (pyStrip raw))).filter
              (fun r => r.warehouse == "Dawson") := by
        rw [ord_uk_eq_filter, ord_uk_eq_filter]
        simp only [asin_orders, List.filter_filter]
        apply List.filter_congr
        intro r _
        by_cases h : r.warehouse = "Dawson"
        · rw [h]
          have h3 : ("Dawson" == "Romania") = false := by decide
          have h4 : ("Dawson" == "Dawson") = true := by decide
          rw [h3, h4]
          simp
        · rw [beq_eq_false_iff_ne.mpr h]
          simp
      rw [hd]

/-- C7: absence of the inventory table is the only fatal condition and its
diagnostic names the upstream preparation step; with the inventory table
present the run always produces a page; and a missing orders table degrades
to an inventory-only view in which every order-derived bar series and order
table is empty. -/
theorem c7_failure_surface (s e : Int) (raw : String) :
    (∀ df_ord, runApp none df_ord s e raw = .fatal missingInventoryMsg)
    ∧ missingInventoryMsg =
        "Missing master_inventory_data.parquet. Please run process_data.py first."
    ∧ (∀ df_inv df_ord, ∃ v, runApp (some df_inv) df_ord s e raw = .page v)
    ∧ (∀ df_inv : List InvRow,
        ukBarsOf (renderMain df_inv none s e raw) = []
        ∧ euBarsOf (renderMain df_inv none s e raw) = []
        ∧ tableUKOf (renderMain df_inv none s e raw) = none
        ∧ tableEUOf (renderMain df_inv none s e raw) = none) := by
  refine ⟨fun df_ord => rfl, rfl, fun df_inv df_ord => ⟨_, rfl⟩, fun df_inv => ?_⟩
  simp only [renderMain]
  by_cases h1 : pyStrip raw = ""
  · rw [if_pos h1]
    exact ⟨rfl, rfl, rfl, rfl⟩
  · rw [if_neg h1]
    by_cases h2 : (asin_inv_filtered df_inv (pyStrip raw) s e).isEmpty
    · rw [if_pos h2]
      exact ⟨rfl, rfl, rfl, rfl⟩
    · rw [if_neg h2]
      exact ⟨rfl, rfl, rfl, rfl⟩

/-- Witness for C7 at concrete arguments. -/
theorem c7_witness :
    runApp none (some [sOrd1]) 0 10 "A" = .fatal missingInventoryMsg
    ∧ ukBarsOf (renderMain [sInv1] none 0 10 "A") = [] :=
  ⟨(c7_failure_surface 0 10 "A").1 (some [sOrd1]),
   ((c7_failure_surface 0 10 "A").2.2.2 [sInv1]).1⟩

/-- Dropping a leading run twice is the same as dropping it once. -/
theorem dropWhile_idem (p : Char → Bool) (l : List Char) :
    (l.dropWhile p).dropWhile p = l.dropWhile p := by
  induction l with
  | nil => rfl
  | cons a t ih =>
    by_cases h : p a
    · rw [List.dropWhile_cons_of_pos h, ih]
    · rw [List.dropWhile_cons_of_neg h, List.dropWhile_cons_of_neg h]

/-- Dropping a trailing run twice is the same as dropping it once. -/
theorem dropWhileRight_idem (p : Char → Bool) (l : List Char) :
    dropWhileRight p (dropWhileRight p l) = dropWhileRight p l := by
  unfold dropWhileRight
  rw [List.reverse_reverse, dropWhile_idem]

/-- Dropping a trailing run leaves a prefix of the list. -/
theorem dropWhileRight_isPrefixOf (p : Char → Bool) (l : List Char) :
    dropWhileRight p l <+: l := by
  have h := List.reverse_prefix.mpr (List.dropWhile_suffix (l := l.reverse) p)
  rw [List.reverse_reverse] at h
  exact h

/-- A prefix of a list with no leading run has no leading run either. -/
theorem dropWhile_eq_self_of_prefix (p : Char → Bool) {l m : List Char}
    (hl : l.dropWhile p = l) (hm : m <+: l) : m.dropWhile p = m := by
  cases m with
  | nil => rfl
  | cons a t =>
    cases l with
    | nil =>
      rcases hm with ⟨r, hr⟩
      cases hr
    | cons b u =>
      have hab : a = b := by
        rcases hm with ⟨r, hr⟩
        rw [List.cons_append] at hr
        injection hr with h1 _
      have hpb : p b = false := by
        by_contra hc
        have hpb2 : p b := by
          cases hpb3 : p b with
          | false => exact absurd hpb3 hc
          | true => rfl
        rw [List.dropWhile_cons_of_pos hpb2] at hl
        have hlen := congrArg List.length hl
        have hle := (List.dropWhile_sublist (l := u) p).length_le
        simp only [List.length_cons] at hlen
        omega
      have hpa : ¬ p a = true := by
        rw [hab, hpb]
        exact Bool.false_ne_true
      rw [List.dropWhile_cons_of_neg hpa]

/-- Python's `strip` is idempotent. -/
theorem pyStrip_idem (s : String) : pyStrip (pyStrip s) = pyStrip s := by
  unfold pyStrip
  congr 1
  have hfront : (s.data.dropWhile pyIsSpace).dropWhile pyIsSpace
      = s.data.dropWhile pyIsSpace := dropWhile_idem pyIsSpace s.data
  have hclean : (dropWhileRight pyIsSpace (s.data.dropWhile pyIsSpace)).dropWhile pyIsSpace
      = dropWhileRight pyIsSpace (s.data.dropWhile pyIsSpace) :=
    dropWhile_eq_self_of_prefix pyIsSpace hfront
      (dropWhileRight_isPrefixOf pyIsSpace (s.data.dropWhile pyIsSpace))
  rw [show (String.mk (dropWhileRight pyIsSpace (s.data.dropWhile pyIsSpace))).data
      = dropWhileRight pyIsSpace (s.data.dropWhile pyIsSpace) from rfl]
  rw [hclean, dropWhileRight_idem]

/-- C10: the entered identifier is stripped before any lookup, so the view
for an input equals the view for its trimmed form, two inputs with the same
trimmed form give identical views, and a whitespace-only input behaves as
the empty input, rendering the ASIN prompt. -/
theorem c10_strip_lookup (df_inv : List InvRow) (df_ord : Option (List OrdRow))
    (s e : Int) (raw : String) :
    (renderMain df_inv df_ord s e (pyStrip raw) = renderMain df_inv df_ord s e raw)
    ∧ (∀ raw2, pyStrip raw2 = pyStrip raw →
        renderMain df_inv df_ord s e raw2 = renderMain df_inv df_ord s e raw)
    ∧ ((∀ c ∈ raw.data, pyIsSpace c) →
        renderMain df_inv df_ord s e raw = .promptAsin) := by
  refine ⟨?_, ?_, ?_⟩
  · simp only [renderMain, pyStrip_idem]
  · intro raw2 h
    simp only [renderMain, h]
  · intro h
    have hstrip : pyStrip raw = "" := by
      unfold pyStrip
      rw [List.dropWhile_eq_nil_iff.mpr h]
      rfl
    simp only [renderMain, hstrip]
    rfl

/-- Witness for C10: surrounding whitespace is ignored and a whitespace-only
input renders the prompt. -/
theorem c10_witness :
    renderMain [sInv1] none 0 10 (pyStrip " A ") = renderMain [sInv1] none 0 10 " A "
    ∧ renderMain [sInv1] none 0 10 "  " = .promptAsin :=
  ⟨(c10_strip_lookup [sInv1] none 0 10 " A ").1,
   (c10_strip_lookup [sInv1] none 0 10 "  ").2.2 (by decide)⟩

/-- Sorting the table rows neither adds nor removes rows. -/
theorem mem_sortByOrderDateDesc {r : OrdRow} {l : List OrdRow} :
    r ∈ sortByOrderDateDesc l ↔ r ∈ l :=
  (List.perm_insertionSort dateDesc l).mem_iff

/-- C3: the chart bar aggregates are computed from the full asin-filtered
order history — changing the date window leaves every bar series of both
charts unchanged — while the window is applied as the chart's forced x-axis
range and as a date filter on the rows of the displayed order tables. -/
theorem c3_orders_not_date_filtered (df_inv : List InvRow) (ords : List OrdRow)
    (s e s2 e2 : Int) (t : String) (ht : pyStrip t = t) (hne : t ≠ "")
    (h1 : ¬ (asin_inv_filtered df_inv t s e).isEmpty = true)
    (h2 : ¬ (asin_inv_filtered df_inv t s2 e2).isEmpty = true) :
    (ukBarsOf (renderMain df_inv (some ords) s e t)
        = ukBarsOf (renderMain df_inv (some ords) s2 e2 t)
      ∧ euBarsOf (renderMain df_inv (some ords) s e t)
        = euBarsOf (renderMain df_inv (some ords) s2 e2 t))
    ∧ xRangeUKOf (renderMain df_inv (some ords) s e t) = some (s, e)
    ∧ (∀ tbl, tableUKOf (renderMain df_inv (some ords) s e t) = some tbl →
        ∀ r : OrdRow, r ∈ tbl.rows ↔
          r ∈ ord_uk (asin_orders (some ords) t) ∧ s ≤ r.order_date ∧ r.order_date ≤ e)
    ∧ (∀ tbl, tableEUOf (renderMain df_inv (some ords) s e t) = some tbl →
        ∀ r : OrdRow, r ∈ tbl.rows ↔
          r ∈ ord_eu (asin_orders (some ords) t) ∧ s ≤ r.order_date ∧ r.order_date ≤ e) := by
  simp only [renderMain, ht, if_neg hne, if_neg h1, if_neg h2]
  refine ⟨⟨rfl, rfl⟩, rfl, ?_, ?_⟩
  · intro tbl htbl r
    simp only [tableUKOf, renderTable] at htbl
    by_cases hu : (ord_uk (asin_orders (some ords) t)).isEmpty
    · rw [if_pos hu] at htbl
      cases htbl
    · rw [if_neg hu] at htbl
      injection htbl with htbl2
      rw [← htbl2]
      simp only [mem_sortByOrderDateDesc, List.mem_filter,
        Bool.and_eq_true, decide_eq_true_eq, and_assoc]
  · intro tbl htbl r
    simp only [tableEUOf, renderTable] at htbl
    by_cases hu : (ord_eu (asin_orders (some ords) t)).isEmpty
    · rw [if_pos hu] at htbl
      cases htbl
    · rw [if_neg hu] at htbl
      injection htbl with htbl2
      rw [← htbl2]
      simp only [mem_sortByOrderDateDesc, List.mem_filter,
        Bool.and_eq_true, decide_eq_true_eq, and_assoc]

/-- Witness for C3: at concrete data, shrinking the window changes no UK bar
series and the x-axis range is the selected window. -/
theorem c3_witness :
    ukBarsOf (renderMain [sInv1, sInv2] (some [sOrd1, sOrd3]) 0 10 "A")
      = ukBarsOf (renderMain [sInv1, sInv2] (some [sOrd1, sOrd3]) 1 6 "A")
    ∧ xRangeUKOf (renderMain [sInv1, sInv2] (some [sOrd1, sOrd3]) 0 10 "A")
      = some (0, 10) :=
  ⟨((c3_orders_not_date_filtered [sInv1, sInv2] [sOrd1, sOrd3] 0 10 1 6 "A"
      (by decide) (by decide) (by decide) (by decide)).1).1,
   (c3_orders_not_date_filtered [sInv1, sInv2] [sOrd1, sOrd3] 0 10 1 6 "A"
      (by decide) (by decide) (by decide) (by decide)).2.1⟩

/-- Counterexample to C4: at a concrete input whose UK order subset is
non-empty, the rendered table's column list is `display_cols`, which omits
the `Warehouse` column the claim requires. -/
theorem c4_counterexample :
    (tableUKOf (renderMain [sInv1] (some [sOrd1]) 0 10 "A")).map OrderTable.cols
      = some display_cols
    ∧ "Warehouse" ∈ claimedDisplayCols
    ∧ "Warehouse" ∉ display_cols := by
  decide

/-- The table sort really is descending in `Order Date`. -/
theorem sortByOrderDateDesc_sorted (rows : List OrdRow) :
    (sortByOrderDateDesc rows).Pairwise (fun a b => b.order_date ≤ a.order_date) :=
  List.sorted_insertionSort dateDesc rows

/-- C4 (amended): each rendered order table, when its regional subset is
non-empty, lists exactly the columns Order ID, sku, Order Date, Quantity,
Channel Name, Dispatch Date — the `Warehouse` column is not displayed — and
its rows are sorted by Order Date descending. -/
theorem c4_table_columns_sorted (df_inv : List InvRow) (df_ord : Option (List OrdRow))
    (s e : Int) (t : String) (tbl : OrderTable)
    (h : tableUKOf (renderMain df_inv df_ord s e t) = some tbl
      ∨ tableEUOf (renderMain df_inv df_ord s e t) = some tbl) :
    tbl.cols = display_cols
    ∧ tbl.rows.Pairwise (fun a b => b.order_date ≤ a.order_date) := by
  have htab : ∀ regional : List OrdRow,
      renderTable regional s e = some tbl →
      tbl.cols = display_cols
      ∧ tbl.rows.Pairwise (fun a b => b.order_date ≤ a.order_date) := by
    intro regional htbl
    simp only [renderTable] at htbl
    by_cases hu : regional.isEmpty
    · rw [if_pos hu] at htbl
      cases htbl
    · rw [if_neg hu] at htbl
      injection htbl with htbl2
      rw [← htbl2]
      exact ⟨rfl, sortByOrderDateDesc_sorted _⟩
  rcases h with h | h
  · simp only [renderMain] at h
    by_cases h1 : pyStrip t = ""
    · rw [if_pos h1] at h
      cases h
    · rw [if_neg h1] at h
      by_cases h2 : (asin_inv_filtered df_inv (pyStrip t) s e).isEmpty
      · rw [if_pos h2] at h
        cases h
      · rw [if_neg h2] at h
        exact htab _ h
  · simp only [renderMain] at h
    by_cases h1 : pyStrip t = ""
    · rw [if_pos h1] at h
      cases h
    · rw [if_neg h1] at h
      by_cases h2 : (asin_inv_filtered df_inv (pyStrip t) s e).isEmpty
      · rw [if_pos h2] at h
        cases h
      · rw [if_neg h2] at h
        exact htab _ h

/-- Witness for C4 at a concrete input with two UK Dawson orders. -/
theorem c4_witness :
    (⟨display_cols, [sOrd3, sOrd1]⟩ : OrderTable).cols = display_cols
    ∧ ([sOrd3, sOrd1] : List OrdRow).Pairwise
        (fun a b => b.order_date ≤ a.order_date) :=
  c4_table_columns_sorted [sInv1] (some [sOrd1, sOrd3]) 0 10 "A"
    ⟨display_cols, [sOrd3, sOrd1]⟩ (Or.inl (by decide))

/-- Counterexample to C5: with the matching inventory rows stored in
descending date order, the header comes from the positionally last filtered
row (date 3, "NameEarly"), not from the row with the latest date (date 5,
"NameLate") — so "the displayed product name and sku come from the row with
the latest date" fails on an input table that is not date-sorted. -/
theorem c5_counterexample :
    headerOf (renderMain [sInv2, sInv1] none 0 10 "A") = some ("NameEarly", "s1")
    ∧ sInv2 ∈ asin_inv_filtered [sInv2, sInv1] "A" 0 10
    ∧ (∀ r ∈ asin_inv_filtered [sInv2, sInv1] "A" 0 10,
        r.product_name = "NameEarly" → r.date < sInv2.date) := by
  decide

/-- The positionally last element of a list that is pairwise nondecreasing
in date carries a maximal date. -/
theorem le_getLast?_date (l : List InvRow)
    (h : l.Pairwise (fun a b => a.date ≤ b.date)) :
    ∀ r, l.getLast? = some r → ∀ x ∈ l, x.date ≤ r.date := by
  induction l with
  | nil =>
    intro r hr
    cases hr
  | cons a t ih =>
    intro r hr x hx
    cases t with
    | nil =>
      have hra : r = a := by
        injection hr with h2
        exact h2.symm
      have hxa : x = a := by
        simpa using hx
      rw [hra, hxa]
    | cons b u =>
      have hr2 : (b :: u).getLast? = some r := by
        rw [List.getLast?_cons_cons] at hr
        exact hr
      rcases List.mem_cons.mp hx with hxa | hxt
      · have hrmem : r ∈ b :: u := List.mem_of_getLast?_eq_some hr2
        rw [hxa]
        exact (List.pairwise_cons.mp h).1 r hrmem
      · exact ih (List.pairwise_cons.mp h).2 r hr2 x hxt

/-- C5 (amended): the Product / SKU header comes from the positionally last
row of the filtered inventory, in the input table's row order; when the
filtered rows are nondecreasing in date — as for a date-sorted input table —
that row carries a maximal date, giving most-recent-row-wins semantics. -/
theorem c5_header_last_row (df_inv : List InvRow) (df_ord : Option (List OrdRow))
    (s e : Int) (t : String) (r : InvRow) (ht : pyStrip t = t) (hne : t ≠ "")
    (hlast : (asin_inv_filtered df_inv t s e).getLast? = some r)
    (hsorted : (asin_inv_filtered df_inv t s e).Pairwise (fun a b => a.date ≤ b.date)) :
    headerOf (renderMain df_inv df_ord s e t) = some (r.product_name, r.sku)
    ∧ ∀ x ∈ asin_inv_filtered df_inv t s e, x.date ≤ r.date := by
  have hnonempty : ¬ (asin_inv_filtered df_inv t s e).isEmpty = true := by
    intro hc
    rw [List.isEmpty_iff.mp hc] at hlast
    cases hlast
  constructor
  · simp only [renderMain]
    rw [ht, if_neg hne, if_neg hnonempty]
    simp only [headerOf]
    rw [hlast]
    rfl
  · exact le_getLast?_date _ hsorted r hlast

/-- Witness for C5 at a date-sorted concrete inventory: the header shows the
latest row's name and sku. -/
theorem c5_witness :
    headerOf (renderMain [sInv1, sInv2] none 0 10 "A")
      = some (sInv2.product_name, sInv2.sku) :=
  (c5_header_last_row [sInv1, sInv2] none 0 10 "A" sInv2
    (by decide) (by decide) (by decide) (by decide)).1

end InventoryHistory
